import Mathlib

/-!
Shallow embedding of `src/retry.py` (module `retry`): a retry helper with
pluggable delay strategies (`Linear`, `Backoff`), jitter, and a decorator
`retry` that drives the loop.

Modelling conventions:
* Delay values and jitter spreads are rationals (`ℚ`); the Python code uses
  ints/floats, and every claim under study involves only exactly
  representable values and order comparisons, which agree between `ℚ` and
  IEEE doubles at these magnitudes.
* The random source `random.random()` is a stream `rng : ℕ → ℚ` together
  with a cursor `k : ℕ`; one draw reads `rng k` and advances the cursor.
* Exceptions raised by the wrapped operation are identified by naturals; a
  value of type `PyVal` is either the matcher class object (`excClass`,
  the `exception` parameter of `retry`) or a raised instance.
* Python optional parameters are `Option` arguments: `none` means the
  caller omitted the argument, and the Python default is applied inside,
  mirroring the source signatures.
-/

/-- Errors the library machinery itself raises (as opposed to exceptions of
the wrapped operation).  `nameErrorArgumentError` models the `NameError`
produced by `raise ArgumentError(...)` in `make_jitterer`'s inner `jitter`
function: the name `ArgumentError` is defined nowhere in the module.
`attributeErrorExceptions` models the `AttributeError` produced by
`strategy.exceptions` in `retry`'s wrapper: `strategy` is the strategy
*class* there, which has no `exceptions` attribute (only instances do). -/
inductive PyErr where
  | nameErrorArgumentError
  | attributeErrorExceptions
deriving DecidableEq

/-- A Python value that can end up in a `Strategy.exceptions` list: either
the exception class passed to `retry` (what `strat.exceptions.append(exception)`
actually appends) or a raised exception instance. -/
inductive PyVal where
  | excClass
  | excInstance (e : ℕ)
deriving DecidableEq

/-- The variant-specific state of a strategy: `Linear` holds its fixed
`interval`; `Backoff` holds `start_interval`, `max_interval` and the
mutable `next_interval`. -/
inductive StratKind where
  | linear (interval : ℚ)
  | backoff (start_interval max_interval next_interval : ℚ)
deriving DecidableEq

/-- The state of a `Strategy` instance: fields of `Strategy.__init__` plus
the variant state.  `max_attempts` is an `ℤ` because Python accepts any
integer here (no validation). -/
structure Strat where
  max_attempts : ℤ
  attempt : ℕ
  jitter_spread : ℚ
  exceptions : List PyVal
  kind : StratKind
deriving DecidableEq

/-- `make_jitterer(spread)` from `src/retry.py`.  At construction it picks
`no_jitter` (the identity, consuming no randomness) iff `spread == 0`;
otherwise it returns the `jitter` closure, which on each call first checks
`0 < spread < 1` and on failure executes `raise ArgumentError(...)` — a
`NameError`, since `ArgumentError` is undefined.  The inner `spread == 0`
branch of `jitter` is kept for faithfulness although it is unreachable.
Returns the jittered interval and the advanced rng cursor. -/
def make_jitterer (spread : ℚ) : ℚ → (ℕ → ℚ) → ℕ → Except PyErr (ℚ × ℕ) :=
  if spread = 0 then
    fun interval _ k => .ok (interval, k)
  else
    fun interval rng k =>
      if ¬ (0 < spread ∧ spread < 1) then .error .nameErrorArgumentError
      else if spread = 0 then .ok (interval, k)
      else .ok (interval + (rng k * 2 - 1) * interval * spread, k + 1)

/-- `Strategy.__init__(max_attempts=MAX_ATTEMPTS, jitter_spread=None)`:
`none` arguments stand for omitted parameters; `MAX_ATTEMPTS = 10`, and a
`None` jitter spread is replaced by `0`. -/
def Strategy.init (kind : StratKind) (max_attempts : Option ℤ) (jitter_spread : Option ℚ) : Strat :=
  { max_attempts := max_attempts.getD 10
    attempt := 0
    jitter_spread := jitter_spread.getD 0
    exceptions := []
    kind := kind }

/-- `Linear.__init__(interval=1, ...)`: note the implicit default `1`. -/
def Linear.init (interval : Option ℚ) (max_attempts : Option ℤ) (jitter_spread : Option ℚ) : Strat :=
  Strategy.init (.linear (interval.getD 1)) max_attempts jitter_spread

/-- `Backoff.__init__(start_interval=1, max_interval=60, ...)`:
`next_interval` is initialized to `start_interval`. -/
def Backoff.init (start_interval max_interval : Option ℚ) (max_attempts : Option ℤ)
    (jitter_spread : Option ℚ) : Strat :=
  Strategy.init
    (.backoff (start_interval.getD 1) (max_interval.getD 60) (start_interval.getD 1))
    max_attempts jitter_spread

/-- The `next()` method of the concrete strategies, as called from
`Strategy.__next__` (so `s.attempt` has already been incremented).
`Linear.next` returns `interval`; `Backoff.next` recomputes
`next_interval = 2**attempt * start_interval` only while
`next_interval < max_interval`, and always returns
`min(next_interval, max_interval)`.  Returns the raw delay and the
(possibly mutated) strategy state. -/
def stratNextRaw (s : Strat) : ℚ × Strat :=
  match s.kind with
  | .linear interval => (interval, s)
  | .backoff st mx ni =>
      let ni2 := if ni < mx then (2 : ℚ) ^ s.attempt * st else ni
      (min ni2 mx, { s with kind := .backoff st mx ni2 })

/-- Result of one `Strategy.__next__` call: a jittered delay together with
the updated strategy state and rng cursor, a `StopIteration`, or an
exception raised while computing the jitter (the state mutation from
`next()` and the attempt increment have already happened in that case,
exactly as in Python). -/
inductive NextRes where
  | value (delay : ℚ) (s : Strat) (k : ℕ)
  | stop
  | error (e : PyErr) (s : Strat) (k : ℕ)
deriving DecidableEq

/-- `Strategy.__next__`: if `attempt < max_attempts`, increment `attempt`,
compute `interval = self.next()` and return `interval + self.jitter(interval)`;
otherwise raise `StopIteration`. -/
def strategyNext (s : Strat) (rng : ℕ → ℚ) (k : ℕ) : NextRes :=
  if (s.attempt : ℤ) < s.max_attempts then
    let s1 : Strat := { s with attempt := s.attempt + 1 }
    let p := stratNextRaw s1
    match make_jitterer p.2.jitter_spread p.1 rng k with
    | .error e => .error e p.2 k
    | .ok jk => .value (p.1 + jk.1) p.2 jk.2
  else .stop

/-- Final outcome of a `retry`-wrapped call: normal return, an error raised
by the retry machinery itself, or an unmatched operation exception
propagating out of the wrapper.  `fuelOut` is a modelling artifact of the
fuel-based loop below; `retry_no_fuelOut` proves it never occurs. -/
inductive ROutcome where
  | success
  | raised (e : PyErr)
  | propagated (e : ℕ)
  | fuelOut
deriving DecidableEq

/-- Observable result of one wrapped call: the outcome, the number of
operation invocations, the list of slept (jittered) delays in order, and
the final contents of the strategy instance's `exceptions` list. -/
structure RunRes where
  outcome : ROutcome
  invocations : ℕ
  sleeps : List ℚ
  exceptions : List PyVal
deriving DecidableEq

/-- The `for interval in strat:` loop of `func_wrapper` in `retry`.
Per iteration: pull a jittered delay (a pull failure propagates; pull
exhaustion falls through to the final `raise`); invoke the operation
(`op n` is the outcome of the `n`-th invocation, `none` = success);
on success break with `Success`; on a failure matched by the `exception`
parameter append `PyVal.excClass` to `strat.exceptions` (the code appends
the matcher class `exception`, not the caught instance), sleep the pulled
delay and continue; on an unmatched failure propagate it.  On exhaustion
the code executes `raise OperationFailed(reasons=strategy.exceptions)`,
which raises `AttributeError` because `strategy` is the class.  `fuel`
bounds the recursion; `retry` supplies more fuel than the loop can use. -/
def retryLoop (matched : ℕ → Bool) (op : ℕ → Option ℕ) (rng : ℕ → ℚ) :
    ℕ → Strat → ℕ → ℕ → List ℚ → RunRes
  | 0, s, _, n, sleeps => ⟨.fuelOut, n, sleeps, s.exceptions⟩
  | fuel + 1, s, k, n, sleeps =>
    if (s.attempt : ℤ) < s.max_attempts then
      let s1 : Strat := { s with attempt := s.attempt + 1 }
      let p := stratNextRaw s1
      match make_jitterer p.2.jitter_spread p.1 rng k with
      | .error e => ⟨.raised e, n, sleeps, p.2.exceptions⟩
      | .ok jk =>
        match op n with
        | none => ⟨.success, n + 1, sleeps, p.2.exceptions⟩
        | some e =>
          if matched e then
            retryLoop matched op rng fuel
              { p.2 with exceptions := p.2.exceptions ++ [PyVal.excClass] }
              jk.2 (n + 1) (sleeps ++ [p.1 + jk.1])
          else ⟨.propagated e, n + 1, sleeps, p.2.exceptions⟩
    else ⟨.raised .attributeErrorExceptions, n, sleeps, s.exceptions⟩

/-- `func_wrapper` of the `retry` decorator: runs the loop on a fresh
strategy instance with cursor, invocation counter and sleep list zeroed.
The fuel `max_attempts.toNat + 1` strictly exceeds the number of loop
iterations (each value-producing pull increments `attempt`). -/
def retry (matched : ℕ → Bool) (op : ℕ → Option ℕ) (rng : ℕ → ℚ) (strat : Strat) : RunRes :=
  retryLoop matched op rng (strat.max_attempts.toNat + 1) strat 0 0 []

/-- One pull of the iterator together with the resulting strategy state and
rng cursor; a `StopIteration` leaves both unchanged (the Python object is
unchanged by an exhausted `__next__`). -/
def pullState (rng : ℕ → ℚ) (sk : Strat × ℕ) : Strat × ℕ :=
  match strategyNext sk.1 rng sk.2 with
  | .value _ s2 k2 => (s2, k2)
  | .error _ s2 k2 => (s2, k2)
  | .stop => sk

/-- `n` successive pulls of the iterator. -/
def pullIter (rng : ℕ → ℚ) : ℕ → Strat × ℕ → Strat × ℕ
  | 0, sk => sk
  | n + 1, sk => pullIter rng n (pullState rng sk)

/-- The list of raw (pre-jitter) values `self.next()` returns over the
first `n` pulls: each pull checks `attempt < max_attempts`, increments
`attempt` and records the raw value, threading the mutated state. -/
def rawSeq : ℕ → Strat → List ℚ
  | 0, _ => []
  | n + 1, s =>
    if (s.attempt : ℤ) < s.max_attempts then
      let s1 : Strat := { s with attempt := s.attempt + 1 }
      let p := stratNextRaw s1
      p.1 :: rawSeq n p.2
    else []

/-- `spread` values for which the jitter closure does not raise: either `0`
(so `no_jitter` was selected at construction) or strictly inside `(0,1)`. -/
def validSpread (sp : ℚ) : Prop := sp = 0 ∨ (0 < sp ∧ sp < 1)

/-! ### Basic facts about the embedded operations -/

theorem stratNextRaw_max_attempts (s : Strat) : (stratNextRaw s).2.max_attempts = s.max_attempts := by
  rcases s with ⟨m, a, sp, exc, k⟩; cases k <;> rfl

theorem stratNextRaw_attempt (s : Strat) : (stratNextRaw s).2.attempt = s.attempt := by
  rcases s with ⟨m, a, sp, exc, k⟩; cases k <;> rfl

theorem stratNextRaw_jitter_spread (s : Strat) :
    (stratNextRaw s).2.jitter_spread = s.jitter_spread := by
  rcases s with ⟨m, a, sp, exc, k⟩; cases k <;> rfl

theorem stratNextRaw_exceptions (s : Strat) : (stratNextRaw s).2.exceptions = s.exceptions := by
  rcases s with ⟨m, a, sp, exc, k⟩; cases k <;> rfl

theorem retryLoop_ne_fuelOut (matched : ℕ → Bool) (op : ℕ → Option ℕ) (rng : ℕ → ℚ) :
    ∀ (fuel : ℕ) (s : Strat) (k n : ℕ) (sleeps : List ℚ),
      (s.max_attempts - (s.attempt : ℤ)).toNat < fuel →
      (retryLoop matched op rng fuel s k n sleeps).outcome ≠ .fuelOut := by
  intro fuel
  induction fuel with
  | zero => exact fun s k n sleeps h => absurd h (by omega)
  | succ fuel ih =>
    intro s k n sleeps h
    rw [retryLoop]
    by_cases hlt : (s.attempt : ℤ) < s.max_attempts
    · simp only [if_pos hlt]
      cases hj : make_jitterer (stratNextRaw { s with attempt := s.attempt + 1 }).2.jitter_spread
          (stratNextRaw { s with attempt := s.attempt + 1 }).1 rng k with
      | error e => simp
      | ok jk =>
        cases hop : op n with
        | none => simp
        | some e =>
          by_cases hme : matched e
          · simp only [if_pos hme]
            apply ih
            have h1 := stratNextRaw_max_attempts { s with attempt := s.attempt + 1 }
            have h2 := stratNextRaw_attempt { s with attempt := s.attempt + 1 }
            simp only [h1, h2]
            simp only [Strat.attempt, Strat.max_attempts] at h1 h2 ⊢
            omega
          · simp [if_neg hme]
    · simp [if_neg hlt]

/-- The fuel supplied by `retry` always suffices: the `fuelOut` artifact
outcome is unreachable from `retry`. -/
theorem retry_no_fuelOut (matched : ℕ → Bool) (op : ℕ → Option ℕ) (rng : ℕ → ℚ) (strat : Strat) :
    (retry matched op rng strat).outcome ≠ .fuelOut := by
  apply retryLoop_ne_fuelOut
  omega

/-- Once `next_interval` has reached `max_interval`, `Backoff.next` never
recomputes it: every raw value produced from such a state, at any attempt
counter, equals `max_interval`. -/
theorem backoff_clamped_raw (st mx ni sp : ℚ) (m : ℤ) (exc : List PyVal) (hclamp : mx ≤ ni) :
    ∀ (n a : ℕ) (q : ℚ), q ∈ rawSeq n ⟨m, a, sp, exc, .backoff st mx ni⟩ → q = mx := by
  intro n
  induction n with
  | zero => intro a q hq; simp [rawSeq] at hq
  | succ n ih =>
    intro a q hq
    rw [rawSeq] at hq
    by_cases hlt : ((a : ℤ) < m)
    · simp only [hlt, if_pos, stratNextRaw, if_neg (not_lt.mpr hclamp),
        min_eq_right hclamp, List.mem_cons] at hq
      rcases hq with rfl | hq
      · rfl
      · exact ih (a + 1) q hq
    · simp [hlt] at hq

/-- C1: on an operation that raises a matched (retryable) failure at every
invocation, with `max_attempts = 3`, the code makes 3 invocations but then
diverges from the claim: it sleeps 3 times (once after the final failed
attempt as well), records the matcher class `exception` three times instead
of the caught failures, and on exhaustion raises `AttributeError` (reading
`strategy.exceptions` on the strategy class) instead of producing the
`OperationFailed` (`Exhausted`) outcome with the caught causes. -/
theorem retry_always_failing_three_attempts :
    retry (fun _ => true) (fun _ => some 0) (fun _ => 0) (Linear.init (some 1) (some 3) none) =
      ⟨.raised .attributeErrorExceptions, 3, [2, 2, 2],
        [.excClass, .excClass, .excClass]⟩ := by
  norm_num [retry, retryLoop, Linear.init, Strategy.init, stratNextRaw, make_jitterer]

/-- C7: with `max_attempts = 0` the operation is never invoked and nothing
is slept, but instead of an immediate `Exhausted` (`OperationFailed`) with
an empty cause list the wrapper raises `AttributeError`, because the final
`raise OperationFailed(reasons=strategy.exceptions)` reads `exceptions` on
the strategy class rather than on the instance `strat`. -/
theorem retry_max_attempts_zero_attribute_error :
    retry (fun _ => true) (fun _ => some 0) (fun _ => 0)
        (Strategy.init (.linear 1) (some 0) none) =
      ⟨.raised .attributeErrorExceptions, 0, [], []⟩ := by
  decide

/-- C8 counterexample: constructing `Linear` without an explicit `interval`
is not an error: `Linear.__init__` declares `interval=1`, so construction
succeeds with the implicit default `1`, and `next()` returns `1`. -/
theorem linear_omitted_interval_defaults :
    Linear.init none none none =
      { max_attempts := 10, attempt := 0, jitter_spread := 0, exceptions := [],
        kind := .linear 1 }
    ∧ (stratNextRaw { Linear.init none none none with attempt := 1 }).1 = 1 :=
  ⟨rfl, rfl⟩

/-- C8 amended: `Linear`'s `interval` parameter is optional with implicit
default `1`; whatever the other arguments, omitting it yields a strategy
whose variant state is `linear 1` and whose `next()` returns `1` at every
attempt counter. -/
theorem linear_interval_optional (m : Option ℤ) (sp : Option ℚ) (a : ℕ) :
    (Linear.init none m sp).kind = .linear 1
    ∧ (stratNextRaw { Linear.init none m sp with attempt := a }).1 = 1 :=
  ⟨rfl, rfl⟩

/-- C6 counterexample: the code constructs `Strategy` instances with a
negative `max_attempts` without any validation, and for those the claimed
invariant `attemptCount <= maxAttempts` is already false at construction
(`attempt = 0 > -1 = max_attempts`). -/
theorem strategy_negative_max_attempts_violates_invariant :
    ¬ (((Strategy.init (.linear 1) (some (-1)) none).attempt : ℤ) ≤
        (Strategy.init (.linear 1) (some (-1)) none).max_attempts) := by
  decide

/-- C5: a `Backoff` with `start_interval = 1`, `max_interval = 60` produces
the raw (pre-jitter) `next()` values `2, 4, 8, 16, 32, 60, 60` on attempts
1..7, and from any clamped state (`next_interval >= max_interval`) every
raw value produced at any later attempt counter equals `max_interval`:
growth never resumes. -/
theorem backoff_raw_sequence_and_clamp :
    rawSeq 7 (Backoff.init (some 1) (some 60) (some 10) none) = [2, 4, 8, 16, 32, 60, 60]
    ∧ ∀ (st mx ni sp : ℚ) (m : ℤ) (exc : List PyVal), mx ≤ ni →
        ∀ (n a : ℕ) (q : ℚ), q ∈ rawSeq n ⟨m, a, sp, exc, .backoff st mx ni⟩ → q = mx :=
  ⟨by norm_num [rawSeq, Backoff.init, Strategy.init, stratNextRaw],
   fun st mx ni sp m exc h => backoff_clamped_raw st mx ni sp m exc h⟩

/-- Witness for C5 at the clamped state reached after six pulls
(`next_interval = 64 ≥ 60`). -/
theorem backoff_raw_sequence_and_clamp_witness :
    rawSeq 7 (Backoff.init (some 1) (some 60) (some 10) none) = [2, 4, 8, 16, 32, 60, 60]
    ∧ (60 : ℚ) = 60 :=
  ⟨backoff_raw_sequence_and_clamp.1,
   backoff_raw_sequence_and_clamp.2 1 60 64 0 10 [] (by norm_num) 2 0 60 (by decide)⟩

/-- C9: a `Backoff` constructed with `start_interval >= max_interval`
starts clamped (`next_interval = start_interval >= max_interval`), so
`next()` returns `max_interval` on every attempt, including the first. -/
theorem backoff_start_ge_max_all_max (st mx : ℚ) (m : Option ℤ) (sp : Option ℚ)
    (h : mx ≤ st) :
    (∀ (n : ℕ) (q : ℚ), q ∈ rawSeq n (Backoff.init (some st) (some mx) m sp) → q = mx)
    ∧ (1 ≤ m.getD 10 → rawSeq 1 (Backoff.init (some st) (some mx) m sp) = [mx]) := by
  constructor
  · intro n q hq
    have hb : Backoff.init (some st) (some mx) m sp =
        ⟨m.getD 10, 0, sp.getD 0, [], .backoff st mx st⟩ := rfl
    rw [hb] at hq
    exact backoff_clamped_raw st mx st (sp.getD 0) (m.getD 10) [] h n 0 q hq
  · intro hm
    have h0 : (0 : ℤ) < m.getD 10 := by omega
    simp [rawSeq, Backoff.init, Strategy.init, stratNextRaw, h0,
      not_lt.mpr h, min_eq_right h]

/-- Witness for C9 with `start_interval = 100 ≥ 60 = max_interval`. -/
theorem backoff_start_ge_max_witness :
    ((60 : ℚ) = 60)
    ∧ rawSeq 1 (Backoff.init (some 100) (some 60) none none) = [60] :=
  ⟨(backoff_start_ge_max_all_max 100 60 none none (by norm_num)).1 3 60 (by decide),
   (backoff_start_ge_max_all_max 100 60 none none (by norm_num)).2 (by norm_num)⟩

/-- C2: when jitter is disabled (`jitter_spread` omitted, `None`, or `0`),
`Strategy.__next__` returns `interval + jitter(interval)` with `jitter` the
identity, i.e. twice the raw value of `next()`, consuming no randomness;
in particular a `Linear` strategy with interval `i` yields the delay `2*i`. -/
theorem spread_zero_delay_doubles :
    (∀ (s : Strat) (rng : ℕ → ℚ) (k : ℕ), s.jitter_spread = 0 →
        (s.attempt : ℤ) < s.max_attempts →
        strategyNext s rng k =
          .value (2 * (stratNextRaw { s with attempt := s.attempt + 1 }).1)
            (stratNextRaw { s with attempt := s.attempt + 1 }).2 k)
    ∧ (∀ (kind : StratKind) (m : Option ℤ), (Strategy.init kind m none).jitter_spread = 0)
    ∧ (∀ (kind : StratKind) (m : Option ℤ), (Strategy.init kind m (some 0)).jitter_spread = 0)
    ∧ (∀ (i : ℚ) (m : Option ℤ) (rng : ℕ → ℚ) (k : ℕ),
        ((Linear.init (some i) m none).attempt : ℤ) <
          (Linear.init (some i) m none).max_attempts →
        strategyNext (Linear.init (some i) m none) rng k =
          .value (2 * i) { Linear.init (some i) m none with attempt := 1 } k) := by
  have key : ∀ (s : Strat) (rng : ℕ → ℚ) (k : ℕ), s.jitter_spread = 0 →
      (s.attempt : ℤ) < s.max_attempts →
      strategyNext s rng k =
        .value (2 * (stratNextRaw { s with attempt := s.attempt + 1 }).1)
          (stratNextRaw { s with attempt := s.attempt + 1 }).2 k := by
    intro s rng k h0 hlt
    have hsp : (stratNextRaw { s with attempt := s.attempt + 1 }).2.jitter_spread = 0 := by
      rw [stratNextRaw_jitter_spread]; exact h0
    have hj : make_jitterer (0 : ℚ) = fun interval _ k => .ok (interval, k) := if_pos rfl
    simp only [strategyNext, if_pos hlt, hsp, hj, two_mul]
  refine ⟨key, fun kind m => rfl, fun kind m => rfl, ?_⟩
  intro i m rng k hlt
  have h := key (Linear.init (some i) m none) rng k rfl hlt
  simpa [Linear.init, Strategy.init, stratNextRaw] using h

/-- Witness for C2 on a `Linear` strategy with interval `5`. -/
theorem spread_zero_delay_doubles_witness :
    strategyNext (Linear.init (some 5) none none) (fun _ => 0) 0 =
      .value (2 * 5) { Linear.init (some 5) none none with attempt := 1 } 0 :=
  spread_zero_delay_doubles.2.2.2 5 none (fun _ => 0) 0 (by norm_num [Linear.init, Strategy.init])

theorem strategyNext_exhausted (s : Strat) (rng : ℕ → ℚ) (k : ℕ)
    (h : ¬ (s.attempt : ℤ) < s.max_attempts) : strategyNext s rng k = .stop := by
  unfold strategyNext
  rw [if_neg h]

theorem pullState_fst (rng : ℕ → ℚ) (s : Strat) (k : ℕ) :
    (pullState rng (s, k)).1 =
      if (s.attempt : ℤ) < s.max_attempts
      then (stratNextRaw { s with attempt := s.attempt + 1 }).2
      else s := by
  unfold pullState strategyNext
  by_cases hlt : (s.attempt : ℤ) < s.max_attempts
  · simp only [if_pos hlt]
    cases hj : make_jitterer (stratNextRaw { s with attempt := s.attempt + 1 }).2.jitter_spread
        (stratNextRaw { s with attempt := s.attempt + 1 }).1 rng k <;> simp [hj]
  · simp [if_neg hlt]

theorem pullIter_inv (rng : ℕ → ℚ) (m : ℤ) :
    ∀ (n : ℕ) (s : Strat) (k : ℕ), s.max_attempts = m → (s.attempt : ℤ) ≤ m →
      (pullIter rng n (s, k)).1.max_attempts = m
      ∧ ((pullIter rng n (s, k)).1.attempt : ℤ) ≤ m := by
  intro n
  induction n with
  | zero => intro s k h1 h2; exact ⟨h1, h2⟩
  | succ n ih =>
    intro s k h1 h2
    rw [pullIter]
    have hps := pullState_fst rng s k
    have hmax : (pullState rng (s, k)).1.max_attempts = m := by
      rw [hps]
      by_cases hlt : (s.attempt : ℤ) < s.max_attempts
      · rw [if_pos hlt, stratNextRaw_max_attempts]; exact h1
      · rw [if_neg hlt]; exact h1
    have hatt : ((pullState rng (s, k)).1.attempt : ℤ) ≤ m := by
      rw [hps]
      by_cases hlt : (s.attempt : ℤ) < s.max_attempts
      · rw [if_pos hlt, stratNextRaw_attempt]
        show ((s.attempt + 1 : ℕ) : ℤ) ≤ m
        rw [h1] at hlt
        push_cast
        omega
      · rw [if_neg hlt]; exact h2
    have hres := ih (pullState rng (s, k)).1 (pullState rng (s, k)).2 hmax hatt
    exact hres

/-- C6 amended: for every strategy constructed with a *non-negative*
`max_attempts = m` (the code also accepts negative values, for which the
invariant fails at construction, see the counterexample), after any number
of pulls the invariant `attempt <= m` holds, and once `attempt` has reached
`m` every further `__next__` raises `StopIteration` — no value and no
error. -/
theorem attempt_invariant_nonneg_max (kind : StratKind) (m : ℤ) (sp : Option ℚ)
    (rng : ℕ → ℚ) (k : ℕ) (hm : 0 ≤ m) (n : ℕ) :
    ((pullIter rng n (Strategy.init kind (some m) sp, k)).1.attempt : ℤ) ≤ m
    ∧ ((((pullIter rng n (Strategy.init kind (some m) sp, k)).1.attempt : ℤ) = m) →
        ∀ (rng2 : ℕ → ℚ) (k2 : ℕ),
          strategyNext (pullIter rng n (Strategy.init kind (some m) sp, k)).1 rng2 k2 =
            .stop) := by
  have h := pullIter_inv rng m n (Strategy.init kind (some m) sp) k rfl
    (by simpa [Strategy.init] using hm)
  refine ⟨h.2, fun heq rng2 k2 => strategyNext_exhausted _ rng2 k2 ?_⟩
  rw [h.1, heq]
  omega

/-- Witness for C6 at `max_attempts = 0` after one pull: the counter sits
at its bound and a further pull stops. -/
theorem attempt_invariant_witness :
    (((pullIter (fun _ => 0) 1 (Strategy.init (.linear 1) (some 0) none, 0)).1.attempt : ℤ) ≤ 0)
    ∧ strategyNext (pullIter (fun _ => 0) 1
        (Strategy.init (.linear 1) (some 0) none, 0)).1 (fun _ => 0) 5 = .stop :=
  ⟨(attempt_invariant_nonneg_max (.linear 1) 0 none (fun _ => 0) 0 le_rfl 1).1,
   (attempt_invariant_nonneg_max (.linear 1) 0 none (fun _ => 0) 0 le_rfl 1).2
     (by decide) (fun _ => 0) 5⟩

/-- C4: if the first invocation of the operation raises a failure the
`except exception` clause does not match, the failure propagates out of the
wrapper as-is: one invocation, no sleep, no recorded cause, and no
exhaustion outcome.  (The hypotheses only ensure the first attempt actually
runs: a positive attempt budget and a jitter spread that does not itself
raise.) -/
theorem nonretryable_propagates_immediately (kind : StratKind) (m : ℤ) (sp : Option ℚ)
    (e : ℕ) (op : ℕ → Option ℕ) (matched : ℕ → Bool) (rng : ℕ → ℚ)
    (hm : 1 ≤ m) (hsp : validSpread (sp.getD 0))
    (hop : op 0 = some e) (hmatch : matched e = false) :
    retry matched op rng (Strategy.init kind (some m) sp) =
      ⟨.propagated e, 1, [], []⟩ := by
  have hlt : ((Strategy.init kind (some m) sp).attempt : ℤ) <
      (Strategy.init kind (some m) sp).max_attempts := by
    simp only [Strategy.init, Option.getD_some, Nat.cast_zero]
    omega
  have hspread : (stratNextRaw
      { Strategy.init kind (some m) sp with
        attempt := (Strategy.init kind (some m) sp).attempt + 1 }).2.jitter_spread =
      sp.getD 0 := by
    rw [stratNextRaw_jitter_spread]
    simp [Strategy.init]
  have hexc : (stratNextRaw
      { Strategy.init kind (some m) sp with
        attempt := (Strategy.init kind (some m) sp).attempt + 1 }).2.exceptions = [] := by
    rw [stratNextRaw_exceptions]
    simp [Strategy.init]
  rcases hsp with h0 | ⟨h1, h2⟩
  · have hj : make_jitterer (sp.getD 0) = fun interval _ k => .ok (interval, k) := by
      rw [h0]; exact if_pos rfl
    unfold retry
    rw [retryLoop]
    rw [if_pos hlt]
    simp only [hspread, hj, hop, hmatch, hexc, Bool.false_eq_true, if_neg, ite_false]
  · have hj : ∀ (i : ℚ) (k : ℕ), make_jitterer (sp.getD 0) i rng k =
        .ok (i + (rng k * 2 - 1) * i * sp.getD 0, k + 1) := by
      intro i k
      unfold make_jitterer
      rw [if_neg (ne_of_gt h1), if_neg (not_not_intro ⟨h1, h2⟩), if_neg (ne_of_gt h1)]
    unfold retry
    rw [retryLoop]
    rw [if_pos hlt]
    simp only [hspread, hj, hop, hmatch, hexc, Bool.false_eq_true, if_neg, ite_false]

/-- Witness for C4: a match-nothing classifier propagates the first failure
with one invocation, no sleeps and no recorded causes. -/
theorem nonretryable_propagates_witness :
    retry (fun _ => false) (fun _ => some 5) (fun _ => 0)
        (Strategy.init (.linear 1) (some 10) none) =
      ⟨.propagated 5, 1, [], []⟩ :=
  nonretryable_propagates_immediately (.linear 1) 10 none 5 (fun _ => some 5)
    (fun _ => false) (fun _ => 0) (by norm_num) (Or.inl rfl) rfl rfl

/-- C3 counterexample: constructing a strategy with `jitter_spread = 2`
(outside `[0,1)`) raises nothing — `Strategy.__init__` just stores the
closure returned by `make_jitterer(2)` — and the failure happens *during*
the retry loop: pulling the first delay raises (a `NameError`, since the
`raise ArgumentError(...)` inside `jitter` references an undefined name),
even for an operation that would have succeeded immediately. -/
theorem invalid_spread_no_construction_error :
    Strategy.init (.linear 1) (some 10) (some 2) =
      { max_attempts := 10, attempt := 0, jitter_spread := 2, exceptions := [],
        kind := .linear 1 }
    ∧ (retry (fun _ => true) (fun _ => none) (fun _ => 0)
        (Strategy.init (.linear 1) (some 10) (some 2))).outcome =
      .raised .nameErrorArgumentError :=
  ⟨rfl, by norm_num [retry, retryLoop, Strategy.init, stratNextRaw, make_jitterer]⟩

/-- C3 amended: for every jitter spread outside `[0,1)` (all of which are
nonzero, so the `jitter` closure is selected), construction succeeds and
the retry wrapper raises the (misnamed) error on the first delay pull of
the loop: zero operation invocations, zero sleeps, zero recorded causes.
No `ConfigurationError` mechanism exists in the code. -/
theorem invalid_spread_errors_in_loop (sp : ℚ) (kind : StratKind) (m : ℤ)
    (matched : ℕ → Bool) (op : ℕ → Option ℕ) (rng : ℕ → ℚ)
    (hsp : sp < 0 ∨ 1 ≤ sp) (hm : 1 ≤ m) :
    retry matched op rng (Strategy.init kind (some m) (some sp)) =
      ⟨.raised .nameErrorArgumentError, 0, [], []⟩ := by
  have hne : ¬ sp = 0 := by
    rcases hsp with h | h <;> intro h0 <;> rw [h0] at h <;> norm_num at h
  have hnot : ¬ (0 < sp ∧ sp < 1) := by
    rintro ⟨ha, hb⟩
    rcases hsp with h | h <;> linarith
  have hlt : ((Strategy.init kind (some m) (some sp)).attempt : ℤ) <
      (Strategy.init kind (some m) (some sp)).max_attempts := by
    simp only [Strategy.init, Option.getD_some, Nat.cast_zero]
    omega
  have hspread : (stratNextRaw
      { Strategy.init kind (some m) (some sp) with
        attempt := (Strategy.init kind (some m) (some sp)).attempt + 1 }).2.jitter_spread =
      sp := by
    rw [stratNextRaw_jitter_spread]
    simp [Strategy.init]
  have hexc : (stratNextRaw
      { Strategy.init kind (some m) (some sp) with
        attempt := (Strategy.init kind (some m) (some sp)).attempt + 1 }).2.exceptions =
      [] := by
    rw [stratNextRaw_exceptions]
    simp [Strategy.init]
  have hj : ∀ (i : ℚ) (k : ℕ), make_jitterer sp i rng k = .error .nameErrorArgumentError := by
    intro i k
    unfold make_jitterer
    rw [if_neg hne, if_pos hnot]
  unfold retry
  rw [retryLoop]
  rw [if_pos hlt]
  simp only [hspread, hexc, hj]

/-- Witness for C3 amended at `spread = 2`, `max_attempts = 10`. -/
theorem invalid_spread_errors_in_loop_witness :
    retry (fun _ => true) (fun _ => none) (fun _ => 0)
        (Strategy.init (.backoff 1 60 1) (some 10) (some 2)) =
      ⟨.raised .nameErrorArgumentError, 0, [], []⟩ :=
  invalid_spread_errors_in_loop 2 (.backoff 1 60 1) 10 (fun _ => true) (fun _ => none)
    (fun _ => 0) (Or.inr (by norm_num)) (by norm_num)

/-- C10 counterexample: at interval `x = 0` (with jitter active,
`spread = 1/2`) the jittered value is `0`, but the claimed half-open range
`[x*(1-spread), x*(1+spread))` is `[0, 0)`, which is empty — so the claim
fails for the interval `0`. -/
theorem jitter_zero_interval_counterexample :
    make_jitterer (1/2) 0 (fun _ => 0) 0 = .ok (0, 1)
    ∧ ¬ ((0 : ℚ) * (1 - 1/2) ≤ 0 ∧ (0 : ℚ) < 0 * (1 + 1/2)) := by
  constructor
  · norm_num [make_jitterer]
  · norm_num

/-- C10 amended: for every spread in `(0,1)` and every *positive* interval
`x`, with a random draw in `[0,1)`, the jitter call consumes exactly one
random value (cursor `k` advances to `k+1`) and returns a value in
`[x*(1-spread), x*(1+spread))`. -/
theorem jitter_bounds_positive_interval (sp x : ℚ) (rng : ℕ → ℚ) (k : ℕ)
    (hs0 : 0 < sp) (hs1 : sp < 1) (hx : 0 < x) (hr0 : 0 ≤ rng k) (hr1 : rng k < 1) :
    make_jitterer sp x rng k = .ok (x + (rng k * 2 - 1) * x * sp, k + 1)
    ∧ x * (1 - sp) ≤ x + (rng k * 2 - 1) * x * sp
    ∧ x + (rng k * 2 - 1) * x * sp < x * (1 + sp) := by
  refine ⟨?_, ?_, ?_⟩
  · unfold make_jitterer
    rw [if_neg (ne_of_gt hs0), if_neg (not_not_intro ⟨hs0, hs1⟩), if_neg (ne_of_gt hs0)]
  · nlinarith [mul_pos hx hs0, mul_nonneg hr0 (mul_pos hx hs0).le]
  · nlinarith [mul_pos hx hs0, mul_pos (show (0:ℚ) < 1 - rng k by linarith) (mul_pos hx hs0)]

/-- Witness for C10 amended at `spread = 1/2`, `x = 4`, random draw `0`. -/
theorem jitter_bounds_witness :
    make_jitterer (1/2) 4 (fun _ => 0) 0 = .ok (4 + ((0:ℚ) * 2 - 1) * 4 * (1/2), 0 + 1)
    ∧ (4 : ℚ) * (1 - 1/2) ≤ 4 + ((0:ℚ) * 2 - 1) * 4 * (1/2)
    ∧ 4 + ((0:ℚ) * 2 - 1) * 4 * (1/2) < 4 * (1 + 1/2) :=
  jitter_bounds_positive_interval (1/2) 4 (fun _ => 0) 0 (by norm_num) (by norm_num)
    (by norm_num) (by norm_num) (by norm_num)

/-- Witness for C8 amended at concrete arguments. -/
theorem linear_interval_optional_witness :
    (Linear.init none none none).kind = .linear 1
    ∧ (stratNextRaw { Linear.init none none none with attempt := 7 }).1 = 1 :=
  linear_interval_optional none none 7
